import Mathlib

/-!
Shallow embedding of `ResourceEstimator/shor_estimate.py` from the
microsoft/QuantumEllipticCurves repository, together with theorems checking
the natural-language specification against the code.

The Python program computes with floating-point numbers; the embedding
interprets the numeric formulas over an arbitrary linear ordered field
(instantiated at `ℚ` for executable checks and at `ℝ` for the generic
point-addition cost model, whose formulas contain `log n / log 2`).
-/

namespace ShorEstimate

/-- Embeds the Python class `SingleCost`: all relevant cost metrics for a
single circuit.  Field order follows the `__init__` signature. -/
structure SingleCost (α : Type) where
  width : α
  T_depth : α
  full_depth : α
  measure : α
  T_count : α
  single_qubit : α
  CNOT : α
deriving DecidableEq, Repr

variable {α : Type} [LinearOrderedField α]

/-- Embeds `SingleCost.add`: costs of two sequential circuits; uses the
maximum width (assumes circuits are run sequentially). -/
def SingleCost.add (c1 c2 : SingleCost α) : SingleCost α where
  width := max c1.width c2.width
  T_depth := c1.T_depth + c2.T_depth
  T_count := c1.T_count + c2.T_count
  full_depth := c1.full_depth + c2.full_depth
  measure := c1.measure + c2.measure
  single_qubit := c1.single_qubit + c2.single_qubit
  CNOT := c1.CNOT + c2.CNOT

/-- Embeds `SingleCost.subtract`: assumes the width actually stays the same. -/
def SingleCost.subtract (c1 c2 : SingleCost α) : SingleCost α where
  width := c1.width
  T_depth := c1.T_depth - c2.T_depth
  T_count := c1.T_count - c2.T_count
  full_depth := c1.full_depth - c2.full_depth
  measure := c1.measure - c2.measure
  single_qubit := c1.single_qubit - c2.single_qubit
  CNOT := c1.CNOT - c2.CNOT

/-- Embeds `SingleCost.multiply`: scales every field except width. -/
def SingleCost.multiply (c : SingleCost α) (n : α) : SingleCost α where
  width := c.width
  T_depth := c.T_depth * n
  T_count := c.T_count * n
  full_depth := c.full_depth * n
  measure := c.measure * n
  single_qubit := c.single_qubit * n
  CNOT := c.CNOT * n

/-- Embeds the Python class `Cost`: one `SingleCost` per optimization
objective. -/
structure Cost (α : Type) where
  low_depth : SingleCost α
  low_T : SingleCost α
  low_width : SingleCost α
deriving DecidableEq, Repr

/-- Embeds `Cost.add` (componentwise). -/
def Cost.add (c1 c2 : Cost α) : Cost α where
  low_depth := c1.low_depth.add c2.low_depth
  low_T := c1.low_T.add c2.low_T
  low_width := c1.low_width.add c2.low_width

/-- Embeds `Cost.subtract` (componentwise). -/
def Cost.subtract (c1 c2 : Cost α) : Cost α where
  low_depth := c1.low_depth.subtract c2.low_depth
  low_T := c1.low_T.subtract c2.low_T
  low_width := c1.low_width.subtract c2.low_width

/-- Embeds `Cost.multiply` (componentwise). -/
def Cost.multiply (c : Cost α) (n : α) : Cost α where
  low_depth := c.low_depth.multiply n
  low_T := c.low_T.multiply n
  low_width := c.low_width.multiply n

/-- Embeds `Lookup_Cost(n, window_size)`: the cost of a lookup for an n-bit
elliptic curve point among a table of `2^window_size` points. -/
def Lookup_Cost (n : α) (window_size : ℕ) : Cost α :=
  let main_exponent : α := 2 ^ window_size
  { low_T :=
      { width := 2.678 * (window_size : α) + 19.81 + 2.01 * n
        T_depth := 0.50733 * main_exponent + 23.0
        full_depth := 17.04 * main_exponent + 101.04
        measure := 1.503 * main_exponent + 4.071 + 2.0 * n
        T_count := 4.0 * main_exponent + 24.0
        single_qubit := 7.74 * main_exponent + 10.68 + 2.0 * n
        CNOT := 115.13 * main_exponent + 117.76 }
    low_width :=
      { width := 2.657 * (window_size : α) + 21.623 + 2.0 * n
        T_depth := 0.50733 * main_exponent + 23.0
        full_depth := 16.96 * main_exponent + 97.98
        measure := 1.516 * main_exponent + 2.288 + 2.0 * n
        T_count := 4.0 * main_exponent + 24.0
        single_qubit := 7.793 * main_exponent + 5.75 + 2.0 * n
        CNOT := main_exponent * (110.73 + 0.016 * n) + 136.793 }
    low_depth :=
      { width := 2.657 * (window_size : α) + 21.623 + 2.0 * n
        T_depth := 0.50733 * main_exponent + 23.0
        full_depth := 16.96 * main_exponent + 97.63
        measure := 1.516 * main_exponent + 2.185 + 2.0 * n
        T_count := 4.0 * main_exponent + 24.0
        single_qubit := 7.793 * main_exponent + 5.218 + 2.0 * n
        CNOT := main_exponent * (110.74 + 0.016 * n) + 134.52 } }

/-- Embeds `point_addition_cost(n)`: the costs of a single point addition with
window size 8, for generic curves.  The Python code computes
`lgn = math.log(n)/math.log(2.0)`, which the embedding interprets over `ℝ`. -/
noncomputable def point_addition_cost (n : ℕ) : Cost ℝ :=
  let nsquared : ℝ := (n : ℝ) * (n : ℝ)
  let lgn : ℝ := Real.log (n : ℝ) / Real.log 2
  let nlgn : ℝ := (n : ℝ) * lgn
  let n2lgn : ℝ := nsquared * lgn
  { low_T :=
      { width := 10.0 * (n : ℝ) + 1.5 * (⌊lgn⌋ : ℝ) + 18.9
        T_depth := 431.6 * nsquared + 17572
        full_depth := 1562 * nsquared + 120830
        measure := 85 * nsquared + 19465
        T_count := 1182 * nsquared + 92166
        single_qubit := 648 * nsquared + 101890
        CNOT := 2391 * nsquared + 473340 }
    low_width :=
      { width := 7.99 * (n : ℝ) + 3.81 * (⌊lgn⌋ : ℝ) + 17.1
        T_depth := 144.5 * n2lgn + 626302
        full_depth := 464.6 * n2lgn + 2074976
        measure := 753.7 * n2lgn - 21095
        T_count := 503.4 * n2lgn + 1318387
        single_qubit := 167.7 * n2lgn + 544865
        CNOT := 751.2 * n2lgn + 2296571 }
    low_depth :=
      { width := 11.0 * (n : ℝ) + 28.6
        T_depth := 226.1 * nlgn + 14469
        full_depth := 1485 * nlgn + 52413
        measure := 202.5 * nsquared - 14509
        T_count := 2745 * nsquared - 85878
        single_qubit := 1462 * nsquared - 35830
        CNOT := 6481 * nsquared + 44882 } }

/-- Embeds one row of the fixed-modulus estimate CSV tables, keyed by the
integer `size` column; the other fields are the columns `load_from_csv`
reads (parsed as integers by the Python code). -/
structure CsvRow where
  size : ℕ
  CNOT_count : ℤ
  clifford_count : ℤ
  T_count_col : ℤ
  M_count : ℤ
  T_depth_col : ℤ
  extra_width : ℤ
  full_depth_col : ℤ
deriving DecidableEq, Repr

/-- Embeds `load_from_csv(csv_file_name, n, existing_costs)`: the file is
modelled as the list of its parsed rows.  Starting from a zeroed
`SingleCost(0,0,0,0,0,0,0)`, each row whose `size` column equals `n`
overwrites the gate-count fields (when `existing_costs` is `None`) or
rebinds the accumulator to `existing_costs` with its `full_depth`
overwritten (otherwise); the final accumulator is returned. -/
def load_from_csv (rows : List CsvRow) (n : ℕ)
    (existing_costs : Option (SingleCost ℚ)) : SingleCost ℚ :=
  rows.foldl
    (fun costs row =>
      if row.size = n then
        match existing_costs with
        | none =>
            { costs with
              CNOT := (row.CNOT_count : ℚ)
              single_qubit := (row.clifford_count : ℚ)
              T_count := (row.T_count_col : ℚ)
              measure := (row.M_count : ℚ)
              T_depth := (row.T_depth_col : ℚ)
              width := (row.extra_width : ℚ) }
        | some ec => { ec with full_depth := (row.full_depth_col : ℚ) }
      else costs)
    (SingleCost.mk 0 0 0 0 0 0 0)

/-- Embeds `fixed_modulus_point_addition_cost(n)`: the six CSV files are
modelled as the lists of their parsed rows. -/
def fixed_modulus_point_addition_cost
    (lowT lowTall lowW lowWall lowD lowDall : List CsvRow) (n : ℕ) : Cost ℚ :=
  let low_T_costs := load_from_csv lowT n none
  let low_T_costs := load_from_csv lowTall n (some low_T_costs)
  let low_width_costs := load_from_csv lowW n none
  let low_width_costs := load_from_csv lowWall n (some low_width_costs)
  let low_depth_costs := load_from_csv lowD n none
  let low_depth_costs := load_from_csv lowDall n (some low_depth_costs)
  Cost.mk low_depth_costs low_T_costs low_width_costs

/-- Embeds `num_windows = math.floor(n / (i+1))` inside `get_optimal_shor`. -/
def num_windows (n i : ℕ) : ℕ := n / (i + 1)

/-- Embeds `remainder_window = max(n - num_windows * (i+1), 0)` inside
`get_optimal_shor` (Python integer arithmetic, hence `ℤ`). -/
def remainder_window (n i : ℕ) : ℤ :=
  max ((n : ℤ) - (num_windows n i : ℤ) * ((i : ℤ) + 1)) 0

/-- Embeds the computation of `blank_addition_cost` at the start of
`get_optimal_shor`: subtract six window-8 lookups and additionally remove
the lookup qubits from each objective's width in place. -/
def blank_addition_cost (addition_cost : Cost α) (n : ℕ) : Cost α :=
  let eight_lookup_cost := (Lookup_Cost (n : α) 8).multiply 6
  let b := addition_cost.subtract eight_lookup_cost
  { low_depth := { b.low_depth with
      width := b.low_depth.width - eight_lookup_cost.low_depth.width }
    low_T := { b.low_T with
      width := b.low_T.width - eight_lookup_cost.low_T.width }
    low_width := { b.low_width with
      width := b.low_width.width - eight_lookup_cost.low_width.width } }

/-- Embeds the per-candidate computation of `total_cost` inside the loop of
`get_optimal_shor` for window size `i`, including the in-place width
adjustments on the freshly built total. -/
def shor_total (blank : Cost α) (n i : ℕ) : Cost α :=
  let nw := num_windows n i
  let rw := remainder_window n i
  let main_lookup_costs := (Lookup_Cost (n : α) i).multiply 6
  let main_addition_cost := blank.add main_lookup_costs
  let total_cost := main_addition_cost.multiply ((2 * nw : ℕ) : α)
  if 0 < rw then
    let second_lookup_costs := (Lookup_Cost (n : α) rw.toNat).multiply 6
    let second_addition_cost := blank.add second_lookup_costs
    let total_cost := total_cost.add (second_addition_cost.multiply 2)
    { low_depth := { total_cost.low_depth with
        width := total_cost.low_depth.width +
          max second_lookup_costs.low_depth.width main_lookup_costs.low_depth.width }
      low_T := { total_cost.low_T with
        width := total_cost.low_T.width +
          max second_lookup_costs.low_T.width main_lookup_costs.low_T.width }
      low_width := { total_cost.low_width with
        width := total_cost.low_width.width +
          max second_lookup_costs.low_width.width main_lookup_costs.low_width.width } }
  else
    { low_depth := { total_cost.low_depth with
        width := total_cost.low_depth.width + main_lookup_costs.low_depth.width }
      low_T := { total_cost.low_T with
        width := total_cost.low_T.width + main_lookup_costs.low_T.width }
      low_width := { total_cost.low_width with
        width := total_cost.low_width.width + main_lookup_costs.low_width.width } }

/-- The running state of `get_optimal_shor`'s loop, i.e. the dictionary the
Python function eventually returns. -/
structure ShorState (α : Type) where
  best_T : Cost α
  best_T_size : ℕ
  best_depth : Cost α
  best_depth_size : ℕ
  best_width : Cost α
  best_width_size : ℕ
deriving DecidableEq, Repr

/-- Embeds one iteration of the comparison block at the end of
`get_optimal_shor`'s loop: each objective's running best is replaced when the
candidate total is strictly smaller in that objective's comparison metric
(`low_T.T_count`, `low_width.T_count`, `low_depth.T_depth`); `copy.deepcopy`
becomes a value copy. -/
def shor_step (blank : Cost α) (n : ℕ) (st : ShorState α) (i : ℕ) : ShorState α :=
  let total_cost := shor_total blank n i
  let st1 := if total_cost.low_T.T_count < st.best_T.low_T.T_count then
    { st with best_T := total_cost, best_T_size := i } else st
  let st2 := if total_cost.low_width.T_count < st1.best_width.low_width.T_count then
    { st1 with best_width := total_cost, best_width_size := i } else st1
  if total_cost.low_depth.T_depth < st2.best_depth.low_depth.T_depth then
    { st2 with best_depth := total_cost, best_depth_size := i } else st2

/-- Embeds `get_optimal_shor(addition_cost, n)`: seed every objective's best
with `addition_cost.multiply(2*n)` at window size 8, then fold the comparison
step over the candidate window sizes `range(int(n/2))`. -/
def get_optimal_shor (addition_cost : Cost α) (n : ℕ) : ShorState α :=
  let blank := blank_addition_cost addition_cost n
  let seed := addition_cost.multiply ((2 * n : ℕ) : α)
  (List.range (n / 2)).foldl (shor_step blank n)
    (ShorState.mk seed 8 seed 8 seed 8)

/-! ### Heap model of `get_optimal_shor`
To state a frame property about the in-place mutations of the Python
function (C9), the same code is embedded once more with every `Cost` object
that the code mutates living in an explicit store; an in-place field update
becomes a store write at the object's address, and `copy.deepcopy` becomes a
value read. -/

/-- A store of allocated `SingleCost` objects, addressed by list index. -/
abbrev Store (α : Type) := List (SingleCost α)

/-- Reads an object from the store. -/
def Store.read (s : Store α) (i : ℕ) : SingleCost α :=
  List.getD s i (SingleCost.mk 0 0 0 0 0 0 0)

/-- Allocates a fresh object, returning the new store and its address. -/
def Store.alloc (s : Store α) (c : SingleCost α) : Store α × ℕ :=
  (s ++ [c], List.length s)

/-- Overwrites the object at an existing address. -/
def Store.write (s : Store α) (i : ℕ) (c : SingleCost α) : Store α :=
  List.set s i c

/-- The addresses of a `Cost` object's three `SingleCost` components. -/
structure CostRef where
  low_depth_addr : ℕ
  low_T_addr : ℕ
  low_width_addr : ℕ

/-- Reads the three components of a `Cost` object. -/
def readCost (s : Store α) (r : CostRef) : Cost α :=
  Cost.mk (s.read r.low_depth_addr) (s.read r.low_T_addr) (s.read r.low_width_addr)

/-- Allocates a fresh `Cost` object (three fresh components). -/
def allocCost (s : Store α) (c : Cost α) : Store α × CostRef :=
  let a1 := s.alloc c.low_depth
  let a2 := a1.1.alloc c.low_T
  let a3 := a2.1.alloc c.low_width
  (a3.1, CostRef.mk a1.2 a2.2 a3.2)

/-- Overwrites the three components of an existing `Cost` object. -/
def writeCost (s : Store α) (r : CostRef) (c : Cost α) : Store α :=
  ((s.write r.low_depth_addr c.low_depth).write r.low_T_addr c.low_T).write
    r.low_width_addr c.low_width

/-- One loop iteration of `get_optimal_shor` over the store: the candidate
total is freshly allocated (by `multiply`, and re-allocated by the `add` in
the remainder branch), its widths are then mutated in place, and the
comparisons read it back out of the store. -/
def heapStep (blankRef : CostRef) (n : ℕ) (acc : Store α × ShorState α) (i : ℕ) :
    Store α × ShorState α :=
  let s := acc.1
  let st := acc.2
  let nw := num_windows n i
  let rw := remainder_window n i
  let main_lookup_costs := (Lookup_Cost (n : α) i).multiply 6
  let main_addition_cost := (readCost s blankRef).add main_lookup_costs
  let a := allocCost s (main_addition_cost.multiply ((2 * nw : ℕ) : α))
  let sa := if 0 < rw then
    let second_lookup_costs := (Lookup_Cost (n : α) rw.toNat).multiply 6
    let second_addition_cost := (readCost a.1 blankRef).add second_lookup_costs
    let b := allocCost a.1 ((readCost a.1 a.2).add (second_addition_cost.multiply 2))
    let t := readCost b.1 b.2
    (writeCost b.1 b.2
      (Cost.mk
        { t.low_depth with width := t.low_depth.width +
            (max second_lookup_costs.low_depth.width main_lookup_costs.low_depth.width) }
        { t.low_T with width := t.low_T.width +
            (max second_lookup_costs.low_T.width main_lookup_costs.low_T.width) }
        { t.low_width with width := t.low_width.width +
            (max second_lookup_costs.low_width.width main_lookup_costs.low_width.width) }),
     b.2)
  else
    let t := readCost a.1 a.2
    (writeCost a.1 a.2
      (Cost.mk
        { t.low_depth with width := t.low_depth.width + main_lookup_costs.low_depth.width }
        { t.low_T with width := t.low_T.width + main_lookup_costs.low_T.width }
        { t.low_width with width := t.low_width.width + main_lookup_costs.low_width.width }),
     a.2)
  let total_cost := readCost sa.1 sa.2
  let st1 := if total_cost.low_T.T_count < st.best_T.low_T.T_count then
    { st with best_T := total_cost, best_T_size := i } else st
  let st2 := if total_cost.low_width.T_count < st1.best_width.low_width.T_count then
    { st1 with best_width := total_cost, best_width_size := i } else st1
  let st3 := if total_cost.low_depth.T_depth < st2.best_depth.low_depth.T_depth then
    { st2 with best_depth := total_cost, best_depth_size := i } else st2
  (sa.1, st3)

/-- `get_optimal_shor` over the store: the caller's `addition_cost` object
lives at `r` in the incoming store; the blank addition is freshly allocated
and its widths mutated in place; the loop then runs `heapStep`. -/
def shorHeap (s0 : Store α) (r : CostRef) (n : ℕ) : Store α × ShorState α :=
  let addition_cost := readCost s0 r
  let eight_lookup_cost := (Lookup_Cost (n : α) 8).multiply 6
  let a := allocCost s0 (addition_cost.subtract eight_lookup_cost)
  let b := readCost a.1 a.2
  let s2 := writeCost a.1 a.2
    (Cost.mk
      { b.low_depth with width := b.low_depth.width - eight_lookup_cost.low_depth.width }
      { b.low_T with width := b.low_T.width - eight_lookup_cost.low_T.width }
      { b.low_width with width := b.low_width.width - eight_lookup_cost.low_width.width })
  let seed := (readCost s2 r).multiply ((2 * n : ℕ) : α)
  (List.range (n / 2)).foldl (heapStep a.2 n)
    (s2, ShorState.mk seed 8 seed 8 seed 8)

/-- Store extension: `s` preserves every object allocated in `s0` (all
writes during a call target addresses at or above `s0.length`). -/
def storeExt (s0 s : Store α) : Prop :=
  List.length s0 ≤ List.length s ∧
    ∀ j, j < List.length s0 → Store.read s j = Store.read s0 j

/-! ### Rational skeletons for the depth objective
The depth-objective comparison metric (`low_depth.T_depth`) and the
depth-claim metric (`low_depth.full_depth`) of every candidate total are
linear in `L = log n / log 2` with rational coefficients.  The pairs below
compute (constant term, coefficient of `L`) and a decidable per-window check
used to bound the chosen depth cost at concrete bit-widths. -/

/-- The low_depth `T_depth` field of `Lookup_Cost` as a rational. -/
def lkTd (w : ℕ) : ℚ := 0.50733 * 2 ^ w + 23.0

/-- The low_depth `full_depth` field of `Lookup_Cost` as a rational. -/
def lkFd (w : ℕ) : ℚ := 16.96 * 2 ^ w + 97.63

/-- Constant part of the blank addition's low_depth `T_depth`. -/
def blankTdConst : ℚ := 14469 - 6 * lkTd 8

/-- Constant part of the blank addition's low_depth `full_depth`. -/
def blankFdConst : ℚ := 52413 - 6 * lkFd 8

/-- (constant, L-coefficient) of the candidate total's low_depth `T_depth`
at bit-width `n` and window size `w`. -/
def candTd (n w : ℕ) : ℚ × ℚ :=
  let m1 : ℚ := 2 * (num_windows n w : ℚ)
  if 0 < remainder_window n w then
    (m1 * (blankTdConst + 6 * lkTd w) +
       2 * (blankTdConst + 6 * lkTd (remainder_window n w).toNat),
     (m1 + 2) * (226.1 * (n : ℚ)))
  else (m1 * (blankTdConst + 6 * lkTd w), m1 * (226.1 * (n : ℚ)))

/-- (constant, L-coefficient) of the candidate total's low_depth
`full_depth` at bit-width `n` and window size `w`. -/
def candFd (n w : ℕ) : ℚ × ℚ :=
  let m1 : ℚ := 2 * (num_windows n w : ℚ)
  if 0 < remainder_window n w then
    (m1 * (blankFdConst + 6 * lkFd w) +
       2 * (blankFdConst + 6 * lkFd (remainder_window n w).toNat),
     (m1 + 2) * (1485 * (n : ℚ)))
  else (m1 * (blankFdConst + 6 * lkFd w), m1 * (1485 * (n : ℚ)))

/-- (constant, L-coefficient) of the seed's low_depth `full_depth`. -/
def seedFd (n : ℕ) : ℚ × ℚ :=
  (52413 * ((2 * n : ℕ) : ℚ), 1485 * (n : ℚ) * ((2 * n : ℕ) : ℚ))

/-- Decidable check for window `w` at bit-width `n`: either `w`'s T-depth
exceeds reference window `wb`'s T-depth throughout `L ∈ [lo, hi]` (so `w`
cannot be the chosen depth window), or `w`'s full-depth is at most the
seed's throughout `[lo, hi]`. -/
def depthOk (n wb : ℕ) (lo hi : ℚ) (w : ℕ) : Bool :=
  let c := candTd n w
  let cb := candTd n wb
  let f := candFd n w
  let s := seedFd n
  (decide (cb.1 + cb.2 * lo < c.1 + c.2 * lo) &&
     decide (cb.1 + cb.2 * hi < c.1 + c.2 * hi)) ||
  (decide (f.1 + f.2 * lo ≤ s.1 + s.2 * lo) &&
     decide (f.1 + f.2 * hi ≤ s.1 + s.2 * hi))

/-! ### Claims about the cost-vector algebra -/

/-- C6: `add` takes the maximum width and sums every other field; `multiply`
by a scalar `k ≥ 0` keeps the width and scales every other field; `subtract`
keeps the width and subtracts every other field; and `add` is commutative in
all fields. -/
theorem claim_C6 (A B : SingleCost α) (k : α) (_hk : 0 ≤ k) :
    (A.add B).width = max A.width B.width ∧
    (A.add B).T_depth = A.T_depth + B.T_depth ∧
    (A.add B).T_count = A.T_count + B.T_count ∧
    (A.add B).full_depth = A.full_depth + B.full_depth ∧
    (A.add B).measure = A.measure + B.measure ∧
    (A.add B).single_qubit = A.single_qubit + B.single_qubit ∧
    (A.add B).CNOT = A.CNOT + B.CNOT ∧
    (A.multiply k).width = A.width ∧
    (A.multiply k).T_depth = A.T_depth * k ∧
    (A.multiply k).T_count = A.T_count * k ∧
    (A.multiply k).full_depth = A.full_depth * k ∧
    (A.multiply k).measure = A.measure * k ∧
    (A.multiply k).single_qubit = A.single_qubit * k ∧
    (A.multiply k).CNOT = A.CNOT * k ∧
    (A.subtract B).width = A.width ∧
    (A.subtract B).T_depth = A.T_depth - B.T_depth ∧
    (A.subtract B).T_count = A.T_count - B.T_count ∧
    (A.subtract B).full_depth = A.full_depth - B.full_depth ∧
    (A.subtract B).measure = A.measure - B.measure ∧
    (A.subtract B).single_qubit = A.single_qubit - B.single_qubit ∧
    (A.subtract B).CNOT = A.CNOT - B.CNOT ∧
    A.add B = B.add A := by
  refine ⟨rfl, rfl, rfl, rfl, rfl, rfl, rfl, rfl, rfl, rfl, rfl, rfl, rfl, rfl,
    rfl, rfl, rfl, rfl, rfl, rfl, rfl, ?_⟩
  simp only [SingleCost.add, SingleCost.mk.injEq]
  exact ⟨max_comm _ _, add_comm _ _, add_comm _ _, add_comm _ _, add_comm _ _,
    add_comm _ _, add_comm _ _⟩

/-- Witness for C6 at a concrete input (`A = ⟨1,2,3,4,5,6,7⟩`,
`B = ⟨8,9,10,11,12,13,14⟩`, `k = 2` over `ℚ`). -/
theorem claim_C6_witness :
    (0 : ℚ) ≤ 2 ∧
    (let A : SingleCost ℚ := SingleCost.mk 1 2 3 4 5 6 7
     let B : SingleCost ℚ := SingleCost.mk 8 9 10 11 12 13 14
     (A.add B).width = max A.width B.width ∧
     (A.add B).T_depth = A.T_depth + B.T_depth ∧
     (A.add B).T_count = A.T_count + B.T_count ∧
     (A.add B).full_depth = A.full_depth + B.full_depth ∧
     (A.add B).measure = A.measure + B.measure ∧
     (A.add B).single_qubit = A.single_qubit + B.single_qubit ∧
     (A.add B).CNOT = A.CNOT + B.CNOT ∧
     (A.multiply 2).width = A.width ∧
     (A.multiply 2).T_depth = A.T_depth * 2 ∧
     (A.multiply 2).T_count = A.T_count * 2 ∧
     (A.multiply 2).full_depth = A.full_depth * 2 ∧
     (A.multiply 2).measure = A.measure * 2 ∧
     (A.multiply 2).single_qubit = A.single_qubit * 2 ∧
     (A.multiply 2).CNOT = A.CNOT * 2 ∧
     (A.subtract B).width = A.width ∧
     (A.subtract B).T_depth = A.T_depth - B.T_depth ∧
     (A.subtract B).T_count = A.T_count - B.T_count ∧
     (A.subtract B).full_depth = A.full_depth - B.full_depth ∧
     (A.subtract B).measure = A.measure - B.measure ∧
     (A.subtract B).single_qubit = A.single_qubit - B.single_qubit ∧
     (A.subtract B).CNOT = A.CNOT - B.CNOT ∧
     A.add B = B.add A) :=
  ⟨by norm_num, claim_C6 (SingleCost.mk 1 2 3 4 5 6 7) (SingleCost.mk 8 9 10 11 12 13 14) 2
    (by norm_num)⟩

/-- C7: subtracting B from A.add B restores every field of A except width,
which stays `max A.width B.width`. -/
theorem claim_C7 (A B : SingleCost α) :
    ((A.add B).subtract B).T_depth = A.T_depth ∧
    ((A.add B).subtract B).T_count = A.T_count ∧
    ((A.add B).subtract B).full_depth = A.full_depth ∧
    ((A.add B).subtract B).measure = A.measure ∧
    ((A.add B).subtract B).single_qubit = A.single_qubit ∧
    ((A.add B).subtract B).CNOT = A.CNOT ∧
    ((A.add B).subtract B).width = max A.width B.width := by
  refine ⟨?_, ?_, ?_, ?_, ?_, ?_, rfl⟩ <;>
    (dsimp only [SingleCost.add, SingleCost.subtract]; ring)

/-- C5: the blank (lookup-free) addition computed at the start of
`get_optimal_shor` subtracts six times every non-width field of a single
window-8 lookup from the addition cost, and subtracts the window-8 lookup's
width (once) from the addition's width, per objective. -/
theorem claim_C5 (c : Cost α) (n : ℕ) :
    (blank_addition_cost c n).low_depth = SingleCost.mk
      (c.low_depth.width - (Lookup_Cost (n : α) 8).low_depth.width)
      (c.low_depth.T_depth - 6 * (Lookup_Cost (n : α) 8).low_depth.T_depth)
      (c.low_depth.full_depth - 6 * (Lookup_Cost (n : α) 8).low_depth.full_depth)
      (c.low_depth.measure - 6 * (Lookup_Cost (n : α) 8).low_depth.measure)
      (c.low_depth.T_count - 6 * (Lookup_Cost (n : α) 8).low_depth.T_count)
      (c.low_depth.single_qubit - 6 * (Lookup_Cost (n : α) 8).low_depth.single_qubit)
      (c.low_depth.CNOT - 6 * (Lookup_Cost (n : α) 8).low_depth.CNOT) ∧
    (blank_addition_cost c n).low_T = SingleCost.mk
      (c.low_T.width - (Lookup_Cost (n : α) 8).low_T.width)
      (c.low_T.T_depth - 6 * (Lookup_Cost (n : α) 8).low_T.T_depth)
      (c.low_T.full_depth - 6 * (Lookup_Cost (n : α) 8).low_T.full_depth)
      (c.low_T.measure - 6 * (Lookup_Cost (n : α) 8).low_T.measure)
      (c.low_T.T_count - 6 * (Lookup_Cost (n : α) 8).low_T.T_count)
      (c.low_T.single_qubit - 6 * (Lookup_Cost (n : α) 8).low_T.single_qubit)
      (c.low_T.CNOT - 6 * (Lookup_Cost (n : α) 8).low_T.CNOT) ∧
    (blank_addition_cost c n).low_width = SingleCost.mk
      (c.low_width.width - (Lookup_Cost (n : α) 8).low_width.width)
      (c.low_width.T_depth - 6 * (Lookup_Cost (n : α) 8).low_width.T_depth)
      (c.low_width.full_depth - 6 * (Lookup_Cost (n : α) 8).low_width.full_depth)
      (c.low_width.measure - 6 * (Lookup_Cost (n : α) 8).low_width.measure)
      (c.low_width.T_count - 6 * (Lookup_Cost (n : α) 8).low_width.T_count)
      (c.low_width.single_qubit - 6 * (Lookup_Cost (n : α) 8).low_width.single_qubit)
      (c.low_width.CNOT - 6 * (Lookup_Cost (n : α) 8).low_width.CNOT) := by
  refine ⟨?_, ?_, ?_⟩ <;>
    (dsimp only [blank_addition_cost, Cost.subtract, Cost.multiply,
      SingleCost.subtract, SingleCost.multiply]
     simp only [SingleCost.mk.injEq]
     refine ⟨?_, ?_, ?_, ?_, ?_, ?_, ?_⟩ <;> ring_nf)

/-- C8: with the window size fixed, every `Lookup_Cost` output field carrying
a positive coefficient on the bit-width n (width, measure and single_qubit of
all three objective vectors, and CNOT of the low_width and low_depth vectors)
is monotone non-decreasing in n. -/
theorem claim_C8 (n1 n2 w : ℕ) (_hpos : 0 < n1) (hle : n1 ≤ n2) :
    (Lookup_Cost (n1 : ℚ) w).low_T.width ≤ (Lookup_Cost (n2 : ℚ) w).low_T.width ∧
    (Lookup_Cost (n1 : ℚ) w).low_T.measure ≤ (Lookup_Cost (n2 : ℚ) w).low_T.measure ∧
    (Lookup_Cost (n1 : ℚ) w).low_T.single_qubit ≤ (Lookup_Cost (n2 : ℚ) w).low_T.single_qubit ∧
    (Lookup_Cost (n1 : ℚ) w).low_width.width ≤ (Lookup_Cost (n2 : ℚ) w).low_width.width ∧
    (Lookup_Cost (n1 : ℚ) w).low_width.measure ≤ (Lookup_Cost (n2 : ℚ) w).low_width.measure ∧
    (Lookup_Cost (n1 : ℚ) w).low_width.single_qubit ≤
      (Lookup_Cost (n2 : ℚ) w).low_width.single_qubit ∧
    (Lookup_Cost (n1 : ℚ) w).low_width.CNOT ≤ (Lookup_Cost (n2 : ℚ) w).low_width.CNOT ∧
    (Lookup_Cost (n1 : ℚ) w).low_depth.width ≤ (Lookup_Cost (n2 : ℚ) w).low_depth.width ∧
    (Lookup_Cost (n1 : ℚ) w).low_depth.measure ≤ (Lookup_Cost (n2 : ℚ) w).low_depth.measure ∧
    (Lookup_Cost (n1 : ℚ) w).low_depth.single_qubit ≤
      (Lookup_Cost (n2 : ℚ) w).low_depth.single_qubit ∧
    (Lookup_Cost (n1 : ℚ) w).low_depth.CNOT ≤ (Lookup_Cost (n2 : ℚ) w).low_depth.CNOT := by
  have hc : (n1 : ℚ) ≤ (n2 : ℚ) := by exact_mod_cast hle
  have hp : (0 : ℚ) ≤ 2 ^ w := by positivity
  dsimp only [Lookup_Cost]
  refine ⟨?_, ?_, ?_, ?_, ?_, ?_, ?_, ?_, ?_, ?_, ?_⟩ <;> nlinarith [hc, hp]

/-- Witness for C8 at `n1 = 3`, `n2 = 5`, `w = 2`. -/
theorem claim_C8_witness :
    0 < 3 ∧ 3 ≤ 5 ∧
    ((Lookup_Cost ((3:ℕ) : ℚ) 2).low_T.width ≤ (Lookup_Cost ((5:ℕ) : ℚ) 2).low_T.width ∧
     (Lookup_Cost ((3:ℕ) : ℚ) 2).low_T.measure ≤ (Lookup_Cost ((5:ℕ) : ℚ) 2).low_T.measure ∧
     (Lookup_Cost ((3:ℕ) : ℚ) 2).low_T.single_qubit ≤
       (Lookup_Cost ((5:ℕ) : ℚ) 2).low_T.single_qubit ∧
     (Lookup_Cost ((3:ℕ) : ℚ) 2).low_width.width ≤ (Lookup_Cost ((5:ℕ) : ℚ) 2).low_width.width ∧
     (Lookup_Cost ((3:ℕ) : ℚ) 2).low_width.measure ≤
       (Lookup_Cost ((5:ℕ) : ℚ) 2).low_width.measure ∧
     (Lookup_Cost ((3:ℕ) : ℚ) 2).low_width.single_qubit ≤
       (Lookup_Cost ((5:ℕ) : ℚ) 2).low_width.single_qubit ∧
     (Lookup_Cost ((3:ℕ) : ℚ) 2).low_width.CNOT ≤ (Lookup_Cost ((5:ℕ) : ℚ) 2).low_width.CNOT ∧
     (Lookup_Cost ((3:ℕ) : ℚ) 2).low_depth.width ≤ (Lookup_Cost ((5:ℕ) : ℚ) 2).low_depth.width ∧
     (Lookup_Cost ((3:ℕ) : ℚ) 2).low_depth.measure ≤
       (Lookup_Cost ((5:ℕ) : ℚ) 2).low_depth.measure ∧
     (Lookup_Cost ((3:ℕ) : ℚ) 2).low_depth.single_qubit ≤
       (Lookup_Cost ((5:ℕ) : ℚ) 2).low_depth.single_qubit ∧
     (Lookup_Cost ((3:ℕ) : ℚ) 2).low_depth.CNOT ≤ (Lookup_Cost ((5:ℕ) : ℚ) 2).low_depth.CNOT) :=
  ⟨by norm_num, by norm_num, claim_C8 3 5 2 (by norm_num) (by norm_num)⟩

/-- C10: the computed remainder window equals `n mod (w+1)`, hence is at most
`w`; when positive, the remainder lookup's window size is strictly positive
and strictly smaller than the main window width `w+1`. -/
theorem claim_C10 (n w : ℕ) (_hn : 1 ≤ n) (_hw : w < n / 2) :
    remainder_window n w = ((n % (w + 1) : ℕ) : ℤ) ∧
    remainder_window n w ≤ (w : ℤ) ∧
    (0 < remainder_window n w →
      0 < (remainder_window n w).toNat ∧ (remainder_window n w).toNat < w + 1) := by
  have hmod : (w + 1) * (n / (w + 1)) + n % (w + 1) = n := Nat.div_add_mod n (w + 1)
  have hlt : n % (w + 1) < w + 1 := Nat.mod_lt n (Nat.succ_pos w)
  have h1 : ((w : ℤ) + 1) * ((n / (w + 1) : ℕ) : ℤ) + ((n % (w + 1) : ℕ) : ℤ) = (n : ℤ) := by
    exact_mod_cast hmod
  have h0 : (0 : ℤ) ≤ ((n % (w + 1) : ℕ) : ℤ) := Int.natCast_nonneg _
  have heq : remainder_window n w = ((n % (w + 1) : ℕ) : ℤ) := by
    dsimp only [remainder_window, num_windows]
    rw [max_eq_left (by linarith)]
    linarith
  refine ⟨heq, ?_, ?_⟩
  · rw [heq]; exact_mod_cast Nat.lt_succ_iff.mp hlt
  · intro hpos
    rw [heq] at hpos ⊢
    constructor <;> omega

/-- Witness for C10 at `n = 7`, `w = 2`. -/
theorem claim_C10_witness :
    1 ≤ 7 ∧ 2 < 7 / 2 ∧
    (remainder_window 7 2 = ((7 % (2 + 1) : ℕ) : ℤ) ∧
     remainder_window 7 2 ≤ (2 : ℤ) ∧
     (0 < remainder_window 7 2 →
       0 < (remainder_window 7 2).toNat ∧ (remainder_window 7 2).toNat < 2 + 1)) :=
  ⟨by norm_num, by norm_num, claim_C10 7 2 (by norm_num) (by norm_num)⟩

/-! ### Structure of the selection step and the search loop -/

lemma shor_step_best_T (blank : Cost α) (n : ℕ) (st : ShorState α) (i : ℕ) :
    (shor_step blank n st i).best_T =
      if (shor_total blank n i).low_T.T_count < st.best_T.low_T.T_count
      then shor_total blank n i else st.best_T := by
  dsimp only [shor_step]; split_ifs <;> rfl

lemma shor_step_best_T_size (blank : Cost α) (n : ℕ) (st : ShorState α) (i : ℕ) :
    (shor_step blank n st i).best_T_size =
      if (shor_total blank n i).low_T.T_count < st.best_T.low_T.T_count
      then i else st.best_T_size := by
  dsimp only [shor_step]; split_ifs <;> rfl

lemma shor_step_best_width (blank : Cost α) (n : ℕ) (st : ShorState α) (i : ℕ) :
    (shor_step blank n st i).best_width =
      if (shor_total blank n i).low_width.T_count < st.best_width.low_width.T_count
      then shor_total blank n i else st.best_width := by
  dsimp only [shor_step]; split_ifs <;> rfl

lemma shor_step_best_width_size (blank : Cost α) (n : ℕ) (st : ShorState α) (i : ℕ) :
    (shor_step blank n st i).best_width_size =
      if (shor_total blank n i).low_width.T_count < st.best_width.low_width.T_count
      then i else st.best_width_size := by
  dsimp only [shor_step]; split_ifs <;> rfl

lemma shor_step_best_depth (blank : Cost α) (n : ℕ) (st : ShorState α) (i : ℕ) :
    (shor_step blank n st i).best_depth =
      if (shor_total blank n i).low_depth.T_depth < st.best_depth.low_depth.T_depth
      then shor_total blank n i else st.best_depth := by
  dsimp only [shor_step]; split_ifs <;> rfl

lemma shor_step_best_depth_size (blank : Cost α) (n : ℕ) (st : ShorState α) (i : ℕ) :
    (shor_step blank n st i).best_depth_size =
      if (shor_total blank n i).low_depth.T_depth < st.best_depth.low_depth.T_depth
      then i else st.best_depth_size := by
  dsimp only [shor_step]; split_ifs <;> rfl

lemma foldl_T_le (blank : Cost α) (n : ℕ) (l : List ℕ) (st : ShorState α) :
    (l.foldl (shor_step blank n) st).best_T.low_T.T_count ≤ st.best_T.low_T.T_count := by
  induction l generalizing st with
  | nil => exact le_refl _
  | cons i l ih =>
      refine le_trans (ih _) ?_
      rw [shor_step_best_T]
      split_ifs with h
      · exact le_of_lt h
      · exact le_refl _

lemma foldl_width_le (blank : Cost α) (n : ℕ) (l : List ℕ) (st : ShorState α) :
    (l.foldl (shor_step blank n) st).best_width.low_width.T_count ≤
      st.best_width.low_width.T_count := by
  induction l generalizing st with
  | nil => exact le_refl _
  | cons i l ih =>
      refine le_trans (ih _) ?_
      rw [shor_step_best_width]
      split_ifs with h
      · exact le_of_lt h
      · exact le_refl _

lemma foldl_depth_le (blank : Cost α) (n : ℕ) (l : List ℕ) (st : ShorState α) :
    (l.foldl (shor_step blank n) st).best_depth.low_depth.T_depth ≤
      st.best_depth.low_depth.T_depth := by
  induction l generalizing st with
  | nil => exact le_refl _
  | cons i l ih =>
      refine le_trans (ih _) ?_
      rw [shor_step_best_depth]
      split_ifs with h
      · exact le_of_lt h
      · exact le_refl _

lemma foldl_depth_le_total (blank : Cost α) (n : ℕ) (l : List ℕ) (st : ShorState α)
    (i : ℕ) (hmem : i ∈ l) :
    (l.foldl (shor_step blank n) st).best_depth.low_depth.T_depth ≤
      (shor_total blank n i).low_depth.T_depth := by
  induction l generalizing st with
  | nil => cases hmem
  | cons j l ih =>
      rcases List.mem_cons.mp hmem with h | h
      · subst h
        refine le_trans (foldl_depth_le blank n l _) ?_
        rw [shor_step_best_depth]
        split_ifs with h
        · exact le_refl _
        · exact le_of_not_lt h
      · exact ih _ h

lemma foldl_depth_mem (blank : Cost α) (n : ℕ) (l : List ℕ) (st : ShorState α) :
    (l.foldl (shor_step blank n) st).best_depth = st.best_depth ∨
      ∃ i ∈ l, (l.foldl (shor_step blank n) st).best_depth = shor_total blank n i := by
  induction l generalizing st with
  | nil => exact Or.inl rfl
  | cons j l ih =>
      rcases ih (shor_step blank n st j) with h | ⟨i, hi, h⟩
      · rw [List.foldl_cons, h, shor_step_best_depth]
        split_ifs
        · exact Or.inr ⟨j, List.mem_cons_self j l, rfl⟩
        · exact Or.inl rfl
      · exact Or.inr ⟨i, List.mem_cons_of_mem j hi, h⟩

lemma foldl_sizes_lt (blank : Cost α) (n k : ℕ) (l : List ℕ) (st : ShorState α)
    (hst : st.best_T_size < k ∧ st.best_depth_size < k ∧ st.best_width_size < k)
    (hl : ∀ i ∈ l, i < k) :
    (l.foldl (shor_step blank n) st).best_T_size < k ∧
      (l.foldl (shor_step blank n) st).best_depth_size < k ∧
      (l.foldl (shor_step blank n) st).best_width_size < k := by
  induction l generalizing st with
  | nil => exact hst
  | cons j l ih =>
      refine ih _ ⟨?_, ?_, ?_⟩ (fun i hi => hl i (List.mem_cons_of_mem j hi))
      · rw [shor_step_best_T_size]
        split_ifs
        · exact hl j (List.mem_cons_self j l)
        · exact hst.1
      · rw [shor_step_best_depth_size]
        split_ifs
        · exact hl j (List.mem_cons_self j l)
        · exact hst.2.1
      · rw [shor_step_best_width_size]
        split_ifs
        · exact hl j (List.mem_cons_self j l)
        · exact hst.2.2

lemma remainder_window_zero (n : ℕ) : remainder_window n 0 = 0 := by
  dsimp only [remainder_window, num_windows]
  simp [Nat.div_one]

lemma step_zero_sizes (c : Cost α) (n : ℕ) (hn : 1 ≤ n) :
    (shor_step (blank_addition_cost c n) n
      (ShorState.mk (c.multiply ((2 * n : ℕ) : α)) 8 (c.multiply ((2 * n : ℕ) : α)) 8
        (c.multiply ((2 * n : ℕ) : α)) 8) 0).best_T_size = 0 ∧
    (shor_step (blank_addition_cost c n) n
      (ShorState.mk (c.multiply ((2 * n : ℕ) : α)) 8 (c.multiply ((2 * n : ℕ) : α)) 8
        (c.multiply ((2 * n : ℕ) : α)) 8) 0).best_depth_size = 0 ∧
    (shor_step (blank_addition_cost c n) n
      (ShorState.mk (c.multiply ((2 * n : ℕ) : α)) 8 (c.multiply ((2 * n : ℕ) : α)) 8
        (c.multiply ((2 * n : ℕ) : α)) 8) 0).best_width_size = 0 := by
  have hm : (0 : α) < (n : α) := by
    rw [Nat.cast_pos]; omega
  have hT : (shor_total (blank_addition_cost c n) n 0).low_T.T_count <
      (c.multiply ((2 * n : ℕ) : α)).low_T.T_count := by
    dsimp only [shor_total, blank_addition_cost, Cost.add, Cost.subtract, Cost.multiply,
      SingleCost.add, SingleCost.subtract, SingleCost.multiply, Lookup_Cost, num_windows]
    rw [remainder_window_zero, if_neg (lt_irrefl 0)]
    dsimp only
    rw [Nat.div_one]
    norm_num
    nlinarith [hm]
  have hW : (shor_total (blank_addition_cost c n) n 0).low_width.T_count <
      (c.multiply ((2 * n : ℕ) : α)).low_width.T_count := by
    dsimp only [shor_total, blank_addition_cost, Cost.add, Cost.subtract, Cost.multiply,
      SingleCost.add, SingleCost.subtract, SingleCost.multiply, Lookup_Cost, num_windows]
    rw [remainder_window_zero, if_neg (lt_irrefl 0)]
    dsimp only
    rw [Nat.div_one]
    norm_num
    nlinarith [hm]
  have hD : (shor_total (blank_addition_cost c n) n 0).low_depth.T_depth <
      (c.multiply ((2 * n : ℕ) : α)).low_depth.T_depth := by
    dsimp only [shor_total, blank_addition_cost, Cost.add, Cost.subtract, Cost.multiply,
      SingleCost.add, SingleCost.subtract, SingleCost.multiply, Lookup_Cost, num_windows]
    rw [remainder_window_zero, if_neg (lt_irrefl 0)]
    dsimp only
    rw [Nat.div_one]
    norm_num
    nlinarith [hm]
  refine ⟨?_, ?_, ?_⟩
  · rw [shor_step_best_T_size, if_pos hT]
  · rw [shor_step_best_depth_size, if_pos hD]
  · rw [shor_step_best_width_size, if_pos hW]

/-- C1 (amended): each objective's running best in `get_optimal_shor`'s loop
is replaced exactly when the candidate total is strictly smaller in that
objective's comparison metric: the T objective compares the low_T vector's
T-count, the width objective compares the low_width vector's T-count, and
the depth objective compares the low_depth vector's T-DEPTH (not its
full-depth); strictness keeps the smallest winning window size on ties. -/
theorem claim_C1 (blank : Cost α) (n : ℕ) (st : ShorState α) (i : ℕ) :
    ((shor_step blank n st i).best_T =
        if (shor_total blank n i).low_T.T_count < st.best_T.low_T.T_count
        then shor_total blank n i else st.best_T) ∧
    ((shor_step blank n st i).best_T_size =
        if (shor_total blank n i).low_T.T_count < st.best_T.low_T.T_count
        then i else st.best_T_size) ∧
    ((shor_step blank n st i).best_width =
        if (shor_total blank n i).low_width.T_count < st.best_width.low_width.T_count
        then shor_total blank n i else st.best_width) ∧
    ((shor_step blank n st i).best_width_size =
        if (shor_total blank n i).low_width.T_count < st.best_width.low_width.T_count
        then i else st.best_width_size) ∧
    ((shor_step blank n st i).best_depth =
        if (shor_total blank n i).low_depth.T_depth < st.best_depth.low_depth.T_depth
        then shor_total blank n i else st.best_depth) ∧
    ((shor_step blank n st i).best_depth_size =
        if (shor_total blank n i).low_depth.T_depth < st.best_depth.low_depth.T_depth
        then i else st.best_depth_size) :=
  ⟨shor_step_best_T blank n st i, shor_step_best_T_size blank n st i,
    shor_step_best_width blank n st i, shor_step_best_width_size blank n st i,
    shor_step_best_depth blank n st i, shor_step_best_depth_size blank n st i⟩

/-- C1 counterexample: with this bundle (low_depth full-depth 30000, all
other fields 0) at bit-width 4, the candidate at window size 1 has strictly
smaller low_depth full-depth than the final depth best, yet the chosen depth
window is 0 — so the depth best is not selected by strict full-depth
comparison as the claim states. -/
theorem claim_C1_counterexample :
    (shor_total
        (blank_addition_cost
          (Cost.mk (SingleCost.mk 0 0 30000 0 0 0 0) (SingleCost.mk 0 0 30000 0 0 0 0)
            (SingleCost.mk 0 0 30000 0 0 0 0) : Cost ℚ) 4) 4 1).low_depth.full_depth <
      (get_optimal_shor
        (Cost.mk (SingleCost.mk 0 0 30000 0 0 0 0) (SingleCost.mk 0 0 30000 0 0 0 0)
          (SingleCost.mk 0 0 30000 0 0 0 0) : Cost ℚ) 4).best_depth.low_depth.full_depth ∧
    (get_optimal_shor
        (Cost.mk (SingleCost.mk 0 0 30000 0 0 0 0) (SingleCost.mk 0 0 30000 0 0 0 0)
          (SingleCost.mk 0 0 30000 0 0 0 0) : Cost ℚ) 4).best_depth_size = 0 := by
  constructor <;> with_unfolding_all decide

/-- C3: for every addition-cost bundle and bit-width `n ≥ 2`, the three
window sizes returned by `get_optimal_shor` lie in `[0, n/2)`. -/
theorem claim_C3 (c : Cost α) (n : ℕ) (hn : 2 ≤ n) :
    (get_optimal_shor c n).best_T_size < n / 2 ∧
    (get_optimal_shor c n).best_depth_size < n / 2 ∧
    (get_optimal_shor c n).best_width_size < n / 2 := by
  obtain ⟨m, hm⟩ : ∃ m, n / 2 = m + 1 := ⟨n / 2 - 1, by omega⟩
  have hz := step_zero_sizes c n (by omega)
  dsimp only [get_optimal_shor]
  rw [hm, List.range_succ_eq_map, List.foldl_cons]
  refine foldl_sizes_lt _ n (m + 1) _ _ ⟨?_, ?_, ?_⟩ ?_
  · rw [hz.1]; omega
  · rw [hz.2.1]; omega
  · rw [hz.2.2]; omega
  · intro i hi
    rcases List.mem_map.mp hi with ⟨j, hj, rfl⟩
    have := List.mem_range.mp hj
    omega

/-- Witness for C3 at the zero bundle over `ℚ` and `n = 4`. -/
theorem claim_C3_witness :
    2 ≤ 4 ∧
    ((get_optimal_shor
        (Cost.mk (SingleCost.mk 0 0 0 0 0 0 0) (SingleCost.mk 0 0 0 0 0 0 0)
          (SingleCost.mk 0 0 0 0 0 0 0) : Cost ℚ) 4).best_T_size < 4 / 2 ∧
     (get_optimal_shor
        (Cost.mk (SingleCost.mk 0 0 0 0 0 0 0) (SingleCost.mk 0 0 0 0 0 0 0)
          (SingleCost.mk 0 0 0 0 0 0 0) : Cost ℚ) 4).best_depth_size < 4 / 2 ∧
     (get_optimal_shor
        (Cost.mk (SingleCost.mk 0 0 0 0 0 0 0) (SingleCost.mk 0 0 0 0 0 0 0)
          (SingleCost.mk 0 0 0 0 0 0 0) : Cost ℚ) 4).best_width_size < 4 / 2) :=
  ⟨by norm_num,
    claim_C3
      (Cost.mk (SingleCost.mk 0 0 0 0 0 0 0) (SingleCost.mk 0 0 0 0 0 0 0)
        (SingleCost.mk 0 0 0 0 0 0 0) : Cost ℚ) 4 (by norm_num)⟩

/-- C2 (code bug): `load_from_csv` for the fixed-modulus variant silently
returns the zeroed cost vector when no row of the table matches the requested
bit-width, instead of raising a typed input error: here the table holds only
a size-256 row and bit-width 384 is requested, both for a single table and
for the full `fixed_modulus_point_addition_cost` bundle. -/
theorem claim_C2 :
    load_from_csv [CsvRow.mk 256 1 2 3 4 5 6 7] 384 none = SingleCost.mk 0 0 0 0 0 0 0 ∧
    fixed_modulus_point_addition_cost
        [CsvRow.mk 256 1 2 3 4 5 6 7] [CsvRow.mk 256 1 2 3 4 5 6 7]
        [CsvRow.mk 256 1 2 3 4 5 6 7] [CsvRow.mk 256 1 2 3 4 5 6 7]
        [CsvRow.mk 256 1 2 3 4 5 6 7] [CsvRow.mk 256 1 2 3 4 5 6 7] 384 =
      Cost.mk (SingleCost.mk 0 0 0 0 0 0 0) (SingleCost.mk 0 0 0 0 0 0 0)
        (SingleCost.mk 0 0 0 0 0 0 0) := by
  constructor <;> with_unfolding_all decide

/-! ### C4: optimizer beats the seeded fallback -/

lemma best_T_le_seed (c : Cost α) (n : ℕ) :
    (get_optimal_shor c n).best_T.low_T.T_count ≤
      (c.multiply ((2 * n : ℕ) : α)).low_T.T_count := by
  dsimp only [get_optimal_shor]
  exact foldl_T_le _ n _ _

lemma best_width_le_seed (c : Cost α) (n : ℕ) :
    (get_optimal_shor c n).best_width.low_width.T_count ≤
      (c.multiply ((2 * n : ℕ) : α)).low_width.T_count := by
  dsimp only [get_optimal_shor]
  exact foldl_width_le _ n _ _

lemma log_div_log_ge (m p q : ℕ) (hq : 0 < q) (hm : 1 < m) (h : 2 ^ p ≤ m ^ q) :
    ((p : ℝ) / (q : ℝ)) ≤ Real.log (m : ℝ) / Real.log 2 := by
  have hm0 : (0 : ℝ) < (m : ℝ) := by
    have : 0 < m := lt_trans Nat.zero_lt_one hm
    exact_mod_cast this
  have hq0 : ((q : ℝ)) ≠ 0 := by
    have : 0 < q := hq
    positivity
  show ((p : ℝ) / (q : ℝ)) ≤ Real.logb 2 (m : ℝ)
  rw [Real.le_logb_iff_rpow_le one_lt_two hm0]
  apply le_of_pow_le_pow_left₀ hq.ne.symm (le_of_lt hm0)
  have e : ((2 : ℝ) ^ ((p : ℝ) / (q : ℝ))) ^ q = (2 : ℝ) ^ (p : ℕ) := by
    rw [← Real.rpow_natCast ((2 : ℝ) ^ ((p : ℝ) / (q : ℝ))) q,
      ← Real.rpow_mul (by norm_num : (0 : ℝ) ≤ 2), div_mul_cancel₀ _ hq0,
      Real.rpow_natCast]
  rw [e]
  exact_mod_cast h

lemma log_div_log_le (m p q : ℕ) (hq : 0 < q) (hm : 1 < m) (h : m ^ q ≤ 2 ^ p) :
    Real.log (m : ℝ) / Real.log 2 ≤ ((p : ℝ) / (q : ℝ)) := by
  have hm0 : (0 : ℝ) < (m : ℝ) := by
    have : 0 < m := lt_trans Nat.zero_lt_one hm
    exact_mod_cast this
  have hq0 : ((q : ℝ)) ≠ 0 := by
    have : 0 < q := hq
    positivity
  show Real.logb 2 (m : ℝ) ≤ ((p : ℝ) / (q : ℝ))
  rw [Real.logb_le_iff_le_rpow one_lt_two hm0]
  apply le_of_pow_le_pow_left₀ hq.ne.symm (by positivity)
  have e : ((2 : ℝ) ^ ((p : ℝ) / (q : ℝ))) ^ q = (2 : ℝ) ^ (p : ℕ) := by
    rw [← Real.rpow_natCast ((2 : ℝ) ^ ((p : ℝ) / (q : ℝ))) q,
      ← Real.rpow_mul (by norm_num : (0 : ℝ) ≤ 2), div_mul_cancel₀ _ hq0,
      Real.rpow_natCast]
  rw [e]
  exact_mod_cast h

lemma candTd_spec (n w : ℕ) :
    (shor_total (blank_addition_cost (point_addition_cost n) n) n w).low_depth.T_depth =
      ((candTd n w).1 : ℝ) + ((candTd n w).2 : ℝ) * (Real.log (n : ℝ) / Real.log 2) := by
  dsimp only [shor_total, blank_addition_cost, point_addition_cost, Cost.add, Cost.subtract,
    Cost.multiply, SingleCost.add, SingleCost.subtract, SingleCost.multiply, Lookup_Cost,
    candTd, lkTd, blankTdConst]
  split_ifs with h
  · push_cast [Rat.cast_ofScientific]
    ring
  · push_cast [Rat.cast_ofScientific]
    ring

lemma candFd_spec (n w : ℕ) :
    (shor_total (blank_addition_cost (point_addition_cost n) n) n w).low_depth.full_depth =
      ((candFd n w).1 : ℝ) + ((candFd n w).2 : ℝ) * (Real.log (n : ℝ) / Real.log 2) := by
  dsimp only [shor_total, blank_addition_cost, point_addition_cost, Cost.add, Cost.subtract,
    Cost.multiply, SingleCost.add, SingleCost.subtract, SingleCost.multiply, Lookup_Cost,
    candFd, lkFd, blankFdConst]
  split_ifs with h
  · push_cast [Rat.cast_ofScientific]
    ring
  · push_cast [Rat.cast_ofScientific]
    ring

lemma seedFd_spec (n : ℕ) :
    ((point_addition_cost n).multiply ((2 * n : ℕ) : ℝ)).low_depth.full_depth =
      ((seedFd n).1 : ℝ) + ((seedFd n).2 : ℝ) * (Real.log (n : ℝ) / Real.log 2) := by
  dsimp only [point_addition_cost, Cost.multiply, SingleCost.multiply, seedFd]
  push_cast
  ring

lemma interval_le (a b lo hi : ℚ) (L : ℝ) (h1 : (lo : ℝ) ≤ L) (h2 : L ≤ (hi : ℝ))
    (hlo : a + b * lo ≤ 0) (hhi : a + b * hi ≤ 0) : (a : ℝ) + (b : ℝ) * L ≤ 0 := by
  have hlo2 : (a : ℝ) + (b : ℝ) * (lo : ℝ) ≤ 0 := by exact_mod_cast hlo
  have hhi2 : (a : ℝ) + (b : ℝ) * (hi : ℝ) ≤ 0 := by exact_mod_cast hhi
  rcases le_total ((b : ℝ)) 0 with hb | hb
  · nlinarith
  · nlinarith

lemma interval_pos (a b lo hi : ℚ) (L : ℝ) (h1 : (lo : ℝ) ≤ L) (h2 : L ≤ (hi : ℝ))
    (hlo : 0 < a + b * lo) (hhi : 0 < a + b * hi) : 0 < (a : ℝ) + (b : ℝ) * L := by
  have hlo2 : 0 < (a : ℝ) + (b : ℝ) * (lo : ℝ) := by exact_mod_cast hlo
  have hhi2 : 0 < (a : ℝ) + (b : ℝ) * (hi : ℝ) := by exact_mod_cast hhi
  rcases le_total ((b : ℝ)) 0 with hb | hb
  · nlinarith
  · nlinarith

lemma depth_le_seed (n wb : ℕ) (lo hi : ℚ) (hwb : wb < n / 2)
    (hlo : (lo : ℝ) ≤ Real.log (n : ℝ) / Real.log 2)
    (hhi : Real.log (n : ℝ) / Real.log 2 ≤ (hi : ℝ))
    (hall : ∀ w ∈ List.range (n / 2), depthOk n wb lo hi w = true) :
    (get_optimal_shor (point_addition_cost n) n).best_depth.low_depth.full_depth ≤
      ((point_addition_cost n).multiply ((2 * n : ℕ) : ℝ)).low_depth.full_depth := by
  dsimp only [get_optimal_shor]
  rcases foldl_depth_mem (blank_addition_cost (point_addition_cost n) n) n
      (List.range (n / 2))
      (ShorState.mk ((point_addition_cost n).multiply ((2 * n : ℕ) : ℝ)) 8
        ((point_addition_cost n).multiply ((2 * n : ℕ) : ℝ)) 8
        ((point_addition_cost n).multiply ((2 * n : ℕ) : ℝ)) 8) with hcase | hex
  · rw [hcase]
  · obtain ⟨i, himem, hcase⟩ := hex
    rw [hcase]
    have hmin : (shor_total (blank_addition_cost (point_addition_cost n) n) n
          i).low_depth.T_depth ≤
        (shor_total (blank_addition_cost (point_addition_cost n) n) n wb).low_depth.T_depth := by
      rw [← hcase]
      exact foldl_depth_le_total _ n _ _ wb (List.mem_range.mpr hwb)
    have hOk := hall i himem
    simp only [depthOk, Bool.or_eq_true, Bool.and_eq_true, decide_eq_true_eq] at hOk
    rcases hOk with ⟨hc1, hc2⟩ | ⟨hc1, hc2⟩
    · exfalso
      have hpos := interval_pos ((candTd n i).1 - (candTd n wb).1)
          ((candTd n i).2 - (candTd n wb).2) lo hi _ hlo hhi (by linarith) (by linarith)
      rw [candTd_spec, candTd_spec] at hmin
      push_cast at hpos
      linarith
    · have hle := interval_le ((candFd n i).1 - (seedFd n).1)
          ((candFd n i).2 - (seedFd n).2) lo hi _ hlo hhi (by linarith) (by linarith)
      rw [candFd_spec, seedFd_spec]
      push_cast at hle
      linarith

set_option maxRecDepth 40000 in
set_option exponentiation.threshold 600 in
/-- C4: for each bit-width n in {10, 64, 256, 384, 521} with the generic
point-addition cost model, each objective's cost returned by
`get_optimal_shor` is at most the seeded fallback `addition_cost × 2n`,
measured in that objective's metric (T-count of `low_T` for the T objective,
full-depth of `low_depth` for the depth objective, T-count of `low_width`
for the width objective). -/
theorem claim_C4 :
    ((get_optimal_shor (point_addition_cost 10) 10).best_T.low_T.T_count ≤
        ((point_addition_cost 10).multiply ((2 * 10 : ℕ) : ℝ)).low_T.T_count ∧
      (get_optimal_shor (point_addition_cost 10) 10).best_depth.low_depth.full_depth ≤
        ((point_addition_cost 10).multiply ((2 * 10 : ℕ) : ℝ)).low_depth.full_depth ∧
      (get_optimal_shor (point_addition_cost 10) 10).best_width.low_width.T_count ≤
        ((point_addition_cost 10).multiply ((2 * 10 : ℕ) : ℝ)).low_width.T_count) ∧
    ((get_optimal_shor (point_addition_cost 64) 64).best_T.low_T.T_count ≤
        ((point_addition_cost 64).multiply ((2 * 64 : ℕ) : ℝ)).low_T.T_count ∧
      (get_optimal_shor (point_addition_cost 64) 64).best_depth.low_depth.full_depth ≤
        ((point_addition_cost 64).multiply ((2 * 64 : ℕ) : ℝ)).low_depth.full_depth ∧
      (get_optimal_shor (point_addition_cost 64) 64).best_width.low_width.T_count ≤
        ((point_addition_cost 64).multiply ((2 * 64 : ℕ) : ℝ)).low_width.T_count) ∧
    ((get_optimal_shor (point_addition_cost 256) 256).best_T.low_T.T_count ≤
        ((point_addition_cost 256).multiply ((2 * 256 : ℕ) : ℝ)).low_T.T_count ∧
      (get_optimal_shor (point_addition_cost 256) 256).best_depth.low_depth.full_depth ≤
        ((point_addition_cost 256).multiply ((2 * 256 : ℕ) : ℝ)).low_depth.full_depth ∧
      (get_optimal_shor (point_addition_cost 256) 256).best_width.low_width.T_count ≤
        ((point_addition_cost 256).multiply ((2 * 256 : ℕ) : ℝ)).low_width.T_count) ∧
    ((get_optimal_shor (point_addition_cost 384) 384).best_T.low_T.T_count ≤
        ((point_addition_cost 384).multiply ((2 * 384 : ℕ) : ℝ)).low_T.T_count ∧
      (get_optimal_shor (point_addition_cost 384) 384).best_depth.low_depth.full_depth ≤
        ((point_addition_cost 384).multiply ((2 * 384 : ℕ) : ℝ)).low_depth.full_depth ∧
      (get_optimal_shor (point_addition_cost 384) 384).best_width.low_width.T_count ≤
        ((point_addition_cost 384).multiply ((2 * 384 : ℕ) : ℝ)).low_width.T_count) ∧
    ((get_optimal_shor (point_addition_cost 521) 521).best_T.low_T.T_count ≤
        ((point_addition_cost 521).multiply ((2 * 521 : ℕ) : ℝ)).low_T.T_count ∧
      (get_optimal_shor (point_addition_cost 521) 521).best_depth.low_depth.full_depth ≤
        ((point_addition_cost 521).multiply ((2 * 521 : ℕ) : ℝ)).low_depth.full_depth ∧
      (get_optimal_shor (point_addition_cost 521) 521).best_width.low_width.T_count ≤
        ((point_addition_cost 521).multiply ((2 * 521 : ℕ) : ℝ)).low_width.T_count) := by
  refine ⟨⟨best_T_le_seed _ 10, ?_, best_width_le_seed _ 10⟩,
    ⟨best_T_le_seed _ 64, ?_, best_width_le_seed _ 64⟩,
    ⟨best_T_le_seed _ 256, ?_, best_width_le_seed _ 256⟩,
    ⟨best_T_le_seed _ 384, ?_, best_width_le_seed _ 384⟩,
    ⟨best_T_le_seed _ 521, ?_, best_width_le_seed _ 521⟩⟩
  · exact depth_le_seed 10 4 (83 / 25) (333 / 100) (by norm_num)
      (by push_cast; exact_mod_cast log_div_log_ge 10 83 25 (by norm_num) (by norm_num) (by norm_num))
      (by push_cast; exact_mod_cast log_div_log_le 10 333 100 (by norm_num) (by norm_num) (by norm_num))
      (by with_unfolding_all decide)
  · exact depth_le_seed 64 12 (599 / 100) (601 / 100) (by norm_num)
      (by push_cast; exact_mod_cast log_div_log_ge 64 599 100 (by norm_num) (by norm_num) (by norm_num))
      (by push_cast; exact_mod_cast log_div_log_le 64 601 100 (by norm_num) (by norm_num) (by norm_num))
      (by with_unfolding_all decide)
  · exact depth_le_seed 256 15 (799 / 100) (801 / 100) (by norm_num)
      (by push_cast; exact_mod_cast log_div_log_ge 256 799 100 (by norm_num) (by norm_num) (by norm_num))
      (by push_cast; exact_mod_cast log_div_log_le 256 801 100 (by norm_num) (by norm_num) (by norm_num))
      (by with_unfolding_all decide)
  · exact depth_le_seed 384 15 (429 / 50) (859 / 100) (by norm_num)
      (by push_cast; exact_mod_cast log_div_log_ge 384 429 50 (by norm_num) (by norm_num) (by norm_num))
      (by push_cast; exact_mod_cast log_div_log_le 384 859 100 (by norm_num) (by norm_num) (by norm_num))
      (by with_unfolding_all decide)
  · exact depth_le_seed 521 15 (451 / 50) (903 / 100) (by norm_num)
      (by push_cast; exact_mod_cast log_div_log_ge 521 451 50 (by norm_num) (by norm_num) (by norm_num))
      (by push_cast; exact_mod_cast log_div_log_le 521 903 100 (by norm_num) (by norm_num) (by norm_num))
      (by with_unfolding_all decide)

/-! ### C9: the optimizer never mutates its argument -/

lemma read_append_left (s t : List (SingleCost α)) (j : ℕ) (h : j < List.length s) :
    Store.read (s ++ t) j = Store.read s j := by
  dsimp only [Store.read]
  rw [List.getD_eq_getElem?_getD, List.getD_eq_getElem?_getD, List.getElem?_append_left h]

lemma read_set_ne (s : Store α) (i j : ℕ) (c : SingleCost α) (h : i ≠ j) :
    Store.read (List.set s i c) j = Store.read s j := by
  dsimp only [Store.read]
  rw [List.getD_eq_getElem?_getD, List.getD_eq_getElem?_getD, List.getElem?_set_ne h]

lemma storeExt_refl (s : Store α) : storeExt s s :=
  ⟨le_refl _, fun _ _ => rfl⟩

lemma storeExt_alloc {s0 s : Store α} (c : SingleCost α) (h : storeExt s0 s) :
    storeExt s0 (s.alloc c).1 ∧ List.length s0 ≤ (s.alloc c).2 := by
  dsimp only [Store.alloc]
  refine ⟨⟨?_, ?_⟩, h.1⟩
  · rw [List.length_append]
    exact le_trans h.1 (Nat.le_add_right _ _)
  · intro j hj
    rw [read_append_left s [c] j (lt_of_lt_of_le hj h.1)]
    exact h.2 j hj

lemma storeExt_write {s0 s : Store α} (i : ℕ) (c : SingleCost α) (h : storeExt s0 s)
    (hi : List.length s0 ≤ i) : storeExt s0 (Store.write s i c) := by
  dsimp only [Store.write]
  refine ⟨?_, ?_⟩
  · rw [List.length_set]
    exact h.1
  · intro j hj
    rw [read_set_ne s i j c (by omega)]
    exact h.2 j hj

lemma storeExt_allocCost {s0 s : Store α} (c : Cost α) (h : storeExt s0 s) :
    storeExt s0 (allocCost s c).1 ∧
      List.length s0 ≤ (allocCost s c).2.low_depth_addr ∧
      List.length s0 ≤ (allocCost s c).2.low_T_addr ∧
      List.length s0 ≤ (allocCost s c).2.low_width_addr := by
  have h1 := storeExt_alloc c.low_depth h
  have h2 := storeExt_alloc c.low_T h1.1
  have h3 := storeExt_alloc c.low_width h2.1
  exact ⟨h3.1, h1.2, h2.2, h3.2⟩

lemma storeExt_writeCost {s0 s : Store α} (r : CostRef) (c : Cost α) (h : storeExt s0 s)
    (h1 : List.length s0 ≤ r.low_depth_addr) (h2 : List.length s0 ≤ r.low_T_addr)
    (h3 : List.length s0 ≤ r.low_width_addr) : storeExt s0 (writeCost s r c) := by
  dsimp only [writeCost]
  exact storeExt_write _ _ (storeExt_write _ _ (storeExt_write _ _ h h1) h2) h3

lemma heapStep_ext (blankRef : CostRef) (n : ℕ) (s0 : Store α)
    (acc : Store α × ShorState α) (i : ℕ) (h : storeExt s0 acc.1) :
    storeExt s0 (heapStep blankRef n acc i).1 := by
  dsimp only [heapStep]
  split_ifs with hrw
  · dsimp only
    refine storeExt_writeCost _ _ ?_ ?_ ?_ ?_
    · exact (storeExt_allocCost _ (storeExt_allocCost _ h).1).1
    · exact (storeExt_allocCost _ (storeExt_allocCost _ h).1).2.1
    · exact (storeExt_allocCost _ (storeExt_allocCost _ h).1).2.2.1
    · exact (storeExt_allocCost _ (storeExt_allocCost _ h).1).2.2.2
  · dsimp only
    refine storeExt_writeCost _ _ ?_ ?_ ?_ ?_
    · exact (storeExt_allocCost _ h).1
    · exact (storeExt_allocCost _ h).2.1
    · exact (storeExt_allocCost _ h).2.2.1
    · exact (storeExt_allocCost _ h).2.2.2

lemma foldl_heap_ext (blankRef : CostRef) (n : ℕ) (s0 : Store α) (l : List ℕ)
    (acc : Store α × ShorState α) (h : storeExt s0 acc.1) :
    storeExt s0 (l.foldl (heapStep blankRef n) acc).1 := by
  induction l generalizing acc with
  | nil => exact h
  | cons j l ih => exact ih _ (heapStep_ext blankRef n s0 acc j h)

lemma shorHeap_ext (s0 : Store α) (r : CostRef) (n : ℕ) :
    storeExt s0 (shorHeap s0 r n).1 := by
  dsimp only [shorHeap]
  refine foldl_heap_ext _ n s0 _ _ ?_
  dsimp only
  refine storeExt_writeCost _ _ ?_ ?_ ?_ ?_
  · exact (storeExt_allocCost _ (storeExt_refl s0)).1
  · exact (storeExt_allocCost _ (storeExt_refl s0)).2.1
  · exact (storeExt_allocCost _ (storeExt_refl s0)).2.2.1
  · exact (storeExt_allocCost _ (storeExt_refl s0)).2.2.2

/-- C9: `get_optimal_shor` never mutates its `addition_cost` argument: in the
heap embedding `shorHeap`, where the argument's three objective vectors live
at addresses allocated before the call, every in-place width mutation targets
a freshly allocated object, so after the call the argument reads back
unchanged. -/
theorem claim_C9 (s0 : Store α) (r : CostRef) (n : ℕ)
    (h1 : r.low_depth_addr < List.length s0) (h2 : r.low_T_addr < List.length s0)
    (h3 : r.low_width_addr < List.length s0) :
    readCost (shorHeap s0 r n).1 r = readCost s0 r := by
  have h := shorHeap_ext s0 r n
  dsimp only [readCost]
  rw [h.2 _ h1, h.2 _ h2, h.2 _ h3]

/-- Witness for C9: a concrete three-object store over `ℚ` at bit-width 3. -/
theorem claim_C9_witness :
    ((CostRef.mk 0 1 2).low_depth_addr <
        List.length [SingleCost.mk (1:ℚ) 2 3 4 5 6 7, SingleCost.mk 8 9 10 11 12 13 14,
          SingleCost.mk 15 16 17 18 19 20 21] ∧
      (CostRef.mk 0 1 2).low_T_addr <
        List.length [SingleCost.mk (1:ℚ) 2 3 4 5 6 7, SingleCost.mk 8 9 10 11 12 13 14,
          SingleCost.mk 15 16 17 18 19 20 21] ∧
      (CostRef.mk 0 1 2).low_width_addr <
        List.length [SingleCost.mk (1:ℚ) 2 3 4 5 6 7, SingleCost.mk 8 9 10 11 12 13 14,
          SingleCost.mk 15 16 17 18 19 20 21]) ∧
    readCost
        (shorHeap
          [SingleCost.mk (1:ℚ) 2 3 4 5 6 7, SingleCost.mk 8 9 10 11 12 13 14,
            SingleCost.mk 15 16 17 18 19 20 21] (CostRef.mk 0 1 2) 3).1
        (CostRef.mk 0 1 2) =
      readCost
        [SingleCost.mk (1:ℚ) 2 3 4 5 6 7, SingleCost.mk 8 9 10 11 12 13 14,
          SingleCost.mk 15 16 17 18 19 20 21] (CostRef.mk 0 1 2) :=
  ⟨⟨by norm_num, by norm_num, by norm_num⟩,
    claim_C9
      [SingleCost.mk (1:ℚ) 2 3 4 5 6 7, SingleCost.mk 8 9 10 11 12 13 14,
        SingleCost.mk 15 16 17 18 19 20 21] (CostRef.mk 0 1 2) 3
      (by norm_num) (by norm_num) (by norm_num)⟩

end ShorEstimate
